import Mathlib

/-!
Verification of the poem-conversion pipeline (`convert-poems.py`).

The script reads a Word document as an ordered sequence of paragraph strings,
splits it into front matter (everything before the first numeric poem marker)
and a list of poems, and writes one Markdown file per non-empty poem plus an
optional front-matter file.

The shallow embedding below models paragraph text as `List Char` (Python `str`
operations become explicit list functions), filesystem output as a list of
`(filename, contents)` pairs, and console output as a list of messages.  The
document-parsing library and the filesystem are outside the program and are
modelled as the function's inputs/outputs.  All definitions are translated
directly from the source.
-/

set_option autoImplicit false

namespace PoemConv

/-- ASCII whitespace as recognised by Python's `str.strip()` and the regex
class `\s` (space, tab, newline, carriage return, vertical tab, form feed). -/
def isSpace (c : Char) : Bool :=
  c = ' ' || c = '\t' || c = '\n' || c = '\r' || c = '\x0b' || c = '\x0c'

/-- Python `str.strip()`: drop leading and trailing whitespace. -/
def pyStrip (s : List Char) : List Char :=
  ((s.dropWhile isSpace).reverse.dropWhile isSpace).reverse

/-- Configured constant `INPUT_FILE` (line 6 of the source). -/
def INPUT_FILE : List Char := "Reality-a-colorful-illusion.docx".toList

/-- Configured constant `OUTPUT_FOLDER` (line 7 of the source). -/
def OUTPUT_FOLDER : List Char := "markdown_poems".toList

/-- Configured constant `AUTHOR_NAME` (line 8 of the source). -/
def AUTHOR_NAME : List Char := "Urangani T.M".toList

/-- The characters removed by `sanitize_filename` (regex `[<>:"/\\|?*]`). -/
def INVALID_CHARS : List Char := ['<', '>', ':', '\"', '/', '\\', '|', '?', '*']

/-- Source lines 10-17, `sanitize_filename`: `None` and the empty string are
falsy in Python, giving `"Untitled"`; otherwise remove the invalid characters,
strip, replace spaces with underscores and truncate to 50 characters. -/
def sanitize_filename (title : Option (List Char)) : List Char :=
  match title with
  | none => "Untitled".toList
  | some t =>
    if t.isEmpty then "Untitled".toList
    else
      let safe := t.filter (fun c => !INVALID_CHARS.contains c)
      let safe := (pyStrip safe).map (fun c => if c = ' ' then '_' else c)
      safe.take 50

/-- Source lines 19-24, `is_poem_number`: `re.match(r'^\s*\d+\.?\s*$', text)`.
Optional leading whitespace, one or more digits, an optional dot, optional
trailing whitespace, and nothing else. -/
def is_poem_number (text : List Char) : Bool :=
  let rest := text.dropWhile isSpace
  let ds := rest.takeWhile Char.isDigit
  let after := rest.dropWhile Char.isDigit
  let after2 := if after.head? = some '.' then after.tail else after
  !ds.isEmpty && after2.all isSpace

/-- Source line 50, `re.search(r'\d+', text).group()`: the first maximal run
of digit characters in the string (empty if the string has no digit). -/
def firstDigitRun : List Char → List Char
  | [] => []
  | c :: rest =>
    if c.isDigit then c :: rest.takeWhile Char.isDigit else firstDigitRun rest

/-- The `current_poem` dictionary built at source lines 51-56. -/
structure Poem where
  number : List Char
  title : Option (List Char)
  lines : List (List Char)
  has_author_sig : Bool
deriving DecidableEq

/-- The fresh poem record created when a marker is recognised (lines 51-56). -/
def mkPoem (num : List Char) : Poem :=
  { number := num, title := none, lines := [], has_author_sig := false }

/-- Source lines 66-77: processing of one paragraph inside a poem.  A
paragraph equal to the author name (after stripping) only sets the signature
flag; otherwise the first non-blank stripped text becomes the title and the
raw paragraph is appended to the body. -/
def poemStep (author : List Char) (p : Poem) (para : List Char) : Poem :=
  let text := pyStrip para
  if text = author then
    { p with has_author_sig := true }
  else
    let p' :=
      if p.title = none ∧ text ≠ [] then { p with title := some text } else p
    { p' with lines := p'.lines ++ [para] }

/-- Source lines 60-63: front-matter accumulation for one paragraph.  The
raw paragraph is kept when its stripped text is non-empty or front matter has
already started (`if text or front_matter`). -/
def frontStep (fm : List (List Char)) (para : List Char) : List (List Char) :=
  if pyStrip para ≠ [] ∨ fm ≠ [] then fm ++ [para] else fm

/-- The mutable loop state of `convert_word_to_md` (lines 34-37). -/
structure SegState where
  poems : List Poem
  front_matter : List (List Char)
  current_poem : Option Poem
  first_poem_found : Bool
deriving DecidableEq

/-- The initial loop state (lines 34-37). -/
def initState : SegState :=
  { poems := [], front_matter := [], current_poem := none,
    first_poem_found := false }

/-- Source lines 41-77: the body of the paragraph loop, as a state
transition.  A marker finalises the current poem and starts a new one; before
the first marker paragraphs feed the front matter; afterwards they feed the
current poem. -/
def stepPara (author : List Char) (st : SegState) (para : List Char) :
    SegState :=
  let text := pyStrip para
  if is_poem_number text then
    { poems := st.poems ++ st.current_poem.toList,
      front_matter := st.front_matter,
      current_poem := some (mkPoem (firstDigitRun text)),
      first_poem_found := true }
  else if st.first_poem_found = false then
    { st with front_matter := frontStep st.front_matter para }
  else
    match st.current_poem with
    | none => st
    | some p => { st with current_poem := some (poemStep author p para) }

/-- Source lines 41-81: run the loop over all paragraphs and append the last
accumulated poem (`if current_poem: poems.append(current_poem)`), returning
`(poems, front_matter)`. -/
def segment (author : List Char) (paras : List (List Char)) :
    List Poem × List (List Char) :=
  let st := paras.foldl (stepPara author) initState
  (st.poems ++ st.current_poem.toList, st.front_matter)

/-- Python `"...".zfill(w)` for an unsigned digit string (line 103): pad on
the left with zeros to width `w`. -/
def zfill (w : Nat) (s : List Char) : List Char :=
  List.replicate (w - s.length) '0' ++ s

/-- Source line 103: the per-poem output filename. -/
def poemFilename (p : Poem) : List Char :=
  zfill 3 p.number ++ ['_'] ++ sanitize_filename p.title ++ ".md".toList

/-- Python truthiness of `poem['title']` (lines 109 and 115): `None` and the
empty string fall back to the default. -/
def pyTitleOr (t : Option (List Char)) (dflt : List Char) : List Char :=
  match t with
  | none => dflt
  | some s => if s.isEmpty then dflt else s

/-- Source lines 119-123: one body line; blank lines become a bare newline
(stanza break), other lines get the two-space Markdown line break. -/
def renderBodyLine (line : List Char) : List Char :=
  if (pyStrip line).isEmpty then ['\n'] else line ++ "  \n".toList

/-- Source lines 106-127: the full contents of one poem file: YAML metadata
block, H1 title, body lines, and the optional author signature with no
trailing newline. -/
def renderPoem (author : List Char) (p : Poem) : List Char :=
  "---\n".toList ++
  "title: \"".toList ++ pyTitleOr p.title "Untitled".toList ++ "\"\n".toList ++
  "author: \"".toList ++ author ++ "\"\n".toList ++
  "id: ".toList ++ p.number ++ ['\n'] ++
  "---\n\n".toList ++
  "# ".toList ++ pyTitleOr p.title ("Poem ".toList ++ p.number) ++
  "\n\n".toList ++
  (p.lines.map renderBodyLine).flatten ++
  (if p.has_author_sig then "\n\n*".toList ++ author ++ ['*'] else [])

/-- Source lines 96-99 and 101-127: a poem produces a file unless every body
line strips to the empty string (`if not any(line.strip() ...): continue`). -/
def writePoemFile (author : List Char) (p : Poem) :
    Option (List Char × List Char) :=
  if p.lines.any (fun l => !(pyStrip l).isEmpty) then
    some (poemFilename p, renderPoem author p)
  else
    none

/-- Source lines 95-130: the poem-writing loop. -/
def writePoems (author : List Char) (poems : List Poem) :
    List (List Char × List Char) :=
  poems.filterMap (writePoemFile author)

/-- Source lines 86-92: the front-matter file contents. -/
def renderFrontMatter (fm : List (List Char)) : List Char :=
  "# Front Matter\n\n".toList ++
  (fm.map (fun line => line ++ "  \n".toList)).flatten

/-- An ASCII apostrophe, kept as a named constant so that the console
messages below can be assembled without quote-heavy literals. -/
def squote : Char := Char.ofNat 39

/-- Source line 28: the error message for a missing input file. -/
def missingInputMessage : List Char :=
  "❌ Error: Could not find ".toList ++ [squote] ++ INPUT_FILE ++ [squote]

/-- Source line 39: the progress message printed before reading. -/
def readingMessage : List Char :=
  "📖 Reading ".toList ++ [squote] ++ INPUT_FILE ++ [squote] ++ "...".toList

/-- Source lines 92 and 129: the per-file save message. -/
def savedMessage (filename : List Char) : List Char :=
  "✓ Saved: ".toList ++ filename

/-- Source line 132: the final summary message. -/
def finishedMessage (n : Nat) : List Char :=
  "\n🎉 Finished! Processed ".toList ++ (Nat.repr n).toList ++
  " poems into ".toList ++ [squote] ++ OUTPUT_FOLDER ++ ['/'] ++ [squote]

/-- The observable outcome of one run: console messages in print order, the
files written as `(name, contents)` pairs, and whether the output directory
was created.  The embedding is a total function, so every run terminates
normally; no exception escapes. -/
structure RunResult where
  messages : List (List Char)
  files : List (List Char × List Char)
  madeOutputDir : Bool
deriving DecidableEq

/-- Source lines 26-132, `convert_word_to_md`: check the input file, segment
its paragraphs, and write the front-matter file and the retained poem files.
The existence of the input file and the paragraph sequence produced by the
document library are the function's inputs. -/
def convert_word_to_md (inputExists : Bool) (paras : List (List Char)) :
    RunResult :=
  if inputExists then
    let res := segment AUTHOR_NAME paras
    let fmFiles :=
      if res.2.isEmpty then []
      else [("00_Front_Matter.md".toList, renderFrontMatter res.2)]
    let pFiles := writePoems AUTHOR_NAME res.1
    { messages :=
        [readingMessage] ++ fmFiles.map (fun f => savedMessage f.1) ++
        pFiles.map (fun f => savedMessage f.1) ++
        [finishedMessage pFiles.length],
      files := fmFiles ++ pFiles,
      madeOutputDir := true }
  else
    { messages := [missingInputMessage], files := [], madeOutputDir := false }


/-! ## Helper lemmas -/

theorem isSpace_not_digit {c : Char} (h : isSpace c = true) :
    c.isDigit = false := by
  simp only [isSpace, Bool.or_eq_true, decide_eq_true_eq] at h
  rcases h with ((((h | h) | h) | h) | h) | h <;> subst h <;> decide

theorem dropWhile_append_all {α : Type} (p : α → Bool) (l r : List α)
    (h : ∀ c ∈ l, p c = true) :
    (l ++ r).dropWhile p = r.dropWhile p := by
  induction l with
  | nil => rfl
  | cons x xs ih =>
    simp only [List.cons_append, List.dropWhile_cons,
      h x (List.mem_cons_self x xs), if_true]
    exact ih fun c hc => h c (List.mem_cons_of_mem x hc)

theorem takeWhile_append_all {α : Type} (p : α → Bool) (l r : List α)
    (h : ∀ c ∈ l, p c = true) :
    (l ++ r).takeWhile p = l ++ r.takeWhile p := by
  induction l with
  | nil => rfl
  | cons x xs ih =>
    simp only [List.cons_append, List.takeWhile_cons,
      h x (List.mem_cons_self x xs), if_true]
    exact congrArg (x :: ·) (ih fun c hc => h c (List.mem_cons_of_mem x hc))

theorem takeWhile_eq_nil_of_all_neg {α : Type} (p : α → Bool) (l : List α)
    (h : ∀ c ∈ l, p c = false) :
    l.takeWhile p = [] := by
  cases l with
  | nil => rfl
  | cons x xs =>
    simp [List.takeWhile_cons, h x (List.mem_cons_self x xs)]

theorem dropWhile_eq_self_of_head_neg {α : Type} (p : α → Bool) (x : α)
    (xs : List α) (h : p x = false) :
    (x :: xs).dropWhile p = x :: xs := by
  simp [List.dropWhile_cons, h]

theorem mem_pyStrip {c : Char} {l : List Char} (h : c ∈ pyStrip l) : c ∈ l := by
  unfold pyStrip at h
  rw [List.mem_reverse] at h
  have h1 := (List.dropWhile_sublist (l := (l.dropWhile isSpace).reverse)
    isSpace).subset h
  rw [List.mem_reverse] at h1
  exact (List.dropWhile_sublist (l := l) isSpace).subset h1

/-! ## C1: end-to-end example -/

/-- The paragraph sequence of the end-to-end scenario. -/
def exampleParas : List (List Char) :=
  ["Intro text", "", "1", "First", "hello world", "", "Urangani T.M",
   "2", "Second", "goodbye"].map String.toList

/-- C1: on the example paragraph sequence with configured author
"Urangani T.M", the pipeline writes exactly the front-matter file (containing
"Intro text"), `001_First.md` with title `First`, body lines `First` and
`hello world`, a stanza break, and the trailing author signature, and
`002_Second.md` with title `Second`, body line `goodbye` and no signature. -/
theorem end_to_end_example :
    (convert_word_to_md true exampleParas).files =
      [("00_Front_Matter.md".toList,
        "# Front Matter\n\nIntro text  \n  \n".toList),
       ("001_First.md".toList,
        ("---\ntitle: \"First\"\nauthor: \"Urangani T.M\"\nid: 1\n---\n\n" ++
         "# First\n\nFirst  \nhello world  \n\n\n\n*Urangani T.M*").toList),
       ("002_Second.md".toList,
        ("---\ntitle: \"Second\"\nauthor: \"Urangani T.M\"\nid: 2\n---\n\n" ++
         "# Second\n\nSecond  \ngoodbye  \n").toList)] := by
  decide

/-! ## C9: missing input file -/

/-- C9: when the input file does not exist, the run reports the user-facing
error message, writes no files and does not create the output directory; the
embedding is a total function, so the run returns normally (no exception
propagates). -/
theorem missing_input_aborts :
    ∀ paras : List (List Char),
      convert_word_to_md false paras =
        { messages := [missingInputMessage], files := [],
          madeOutputDir := false } := by
  intro paras
  rfl

/-! ## C2: marker recognition -/

/-- A character permitted by the marker pattern: a digit, a dot, or
whitespace (the claim's "digits, a dot, and whitespace"). -/
def markerChar (c : Char) : Bool :=
  c.isDigit || c = '.' || isSpace c

theorem digit_not_space {c : Char} (h : c.isDigit = true) :
    isSpace c = false := by
  cases hs : isSpace c with
  | false => rfl
  | true => rw [isSpace_not_digit hs] at h; exact absurd h (by simp)

theorem dropWhile_eq_self_of_all_neg {α : Type} (p : α → Bool) (l : List α)
    (h : ∀ c ∈ l, p c = false) :
    l.dropWhile p = l := by
  cases l with
  | nil => rfl
  | cons x xs => simp [List.dropWhile_cons, h x (List.mem_cons_self x xs)]

theorem firstDigitRun_cons_digit (d : Char) (l : List Char)
    (hd : d.isDigit = true) :
    firstDigitRun (d :: l) = d :: l.takeWhile Char.isDigit := by
  simp [firstDigitRun, hd]

theorem firstDigitRun_append_spaces (ws : List Char) (l : List Char)
    (h : ∀ c ∈ ws, isSpace c = true) :
    firstDigitRun (ws ++ l) = firstDigitRun l := by
  induction ws with
  | nil => rfl
  | cons x xs ih =>
    have hx : x.isDigit = false :=
      isSpace_not_digit (h x (List.mem_cons_self x xs))
    simp only [List.cons_append, firstDigitRun, hx, Bool.false_eq_true,
      if_false]
    exact ih fun c hc => h c (List.mem_cons_of_mem x hc)

theorem takeWhile_digit_dot_spaces (dot ws2 : List Char)
    (h4 : dot = [] ∨ dot = ['.']) (h5 : ∀ c ∈ ws2, isSpace c = true) :
    (dot ++ ws2).takeWhile Char.isDigit = [] := by
  rcases h4 with rfl | rfl
  · exact takeWhile_eq_nil_of_all_neg _ _
      fun c hc => isSpace_not_digit (h5 c hc)
  · simp [List.takeWhile_cons]

theorem dropWhile_digit_dot_spaces (dot ws2 : List Char)
    (h4 : dot = [] ∨ dot = ['.']) (h5 : ∀ c ∈ ws2, isSpace c = true) :
    (dot ++ ws2).dropWhile Char.isDigit = dot ++ ws2 := by
  rcases h4 with rfl | rfl
  · rw [List.nil_append]
    exact dropWhile_eq_self_of_all_neg _ _
      fun c hc => isSpace_not_digit (h5 c hc)
  · simp [List.dropWhile_cons]

theorem is_poem_number_of_shape (ws1 ds dot ws2 : List Char)
    (h1 : ∀ c ∈ ws1, isSpace c = true) (h2 : ds ≠ [])
    (h3 : ∀ c ∈ ds, c.isDigit = true) (h4 : dot = [] ∨ dot = ['.'])
    (h5 : ∀ c ∈ ws2, isSpace c = true) :
    is_poem_number (ws1 ++ ds ++ dot ++ ws2) = true := by
  obtain ⟨d, ds', rfl⟩ := List.exists_cons_of_ne_nil h2
  have hd : d.isDigit = true := h3 d (List.mem_cons_self d ds')
  have hrest : ((d :: ds') ++ (dot ++ ws2)).dropWhile isSpace =
      (d :: ds') ++ (dot ++ ws2) := by
    rw [List.cons_append]
    exact dropWhile_eq_self_of_head_neg _ _ _ (digit_not_space hd)
  have htake : ((d :: ds') ++ (dot ++ ws2)).takeWhile Char.isDigit =
      d :: ds' := by
    rw [takeWhile_append_all Char.isDigit _ _ h3,
      takeWhile_digit_dot_spaces dot ws2 h4 h5, List.append_nil]
  have hdrop : ((d :: ds') ++ (dot ++ ws2)).dropWhile Char.isDigit =
      dot ++ ws2 := by
    rw [dropWhile_append_all Char.isDigit _ _ h3,
      dropWhile_digit_dot_spaces dot ws2 h4 h5]
  rw [show ws1 ++ (d :: ds') ++ dot ++ ws2 =
      ws1 ++ ((d :: ds') ++ (dot ++ ws2)) by
    rw [List.append_assoc, List.append_assoc]]
  simp only [is_poem_number]
  rw [dropWhile_append_all isSpace ws1 _ h1, hrest, htake, hdrop]
  rw [Bool.and_eq_true]
  refine ⟨by simp, ?_⟩
  rcases h4 with rfl | rfl
  · rw [List.nil_append]
    cases hws2 : ws2 with
    | nil => simp
    | cons c t =>
      have hc : isSpace c = true := h5 c (hws2 ▸ List.mem_cons_self c t)
      have hne : c ≠ '.' := by
        intro hceq; rw [hceq] at hc; exact absurd hc (by decide)
      rw [List.head?_cons, if_neg (by simp [hne])]
      exact List.all_eq_true.mpr fun x hx => h5 x (hws2 ▸ hx)
  · rw [List.singleton_append, List.head?_cons, if_pos rfl, List.tail_cons]
    exact List.all_eq_true.mpr h5

theorem firstDigitRun_of_shape (ws1 ds dot ws2 : List Char)
    (h1 : ∀ c ∈ ws1, isSpace c = true) (h2 : ds ≠ [])
    (h3 : ∀ c ∈ ds, c.isDigit = true) (h4 : dot = [] ∨ dot = ['.'])
    (h5 : ∀ c ∈ ws2, isSpace c = true) :
    firstDigitRun (ws1 ++ ds ++ dot ++ ws2) = ds := by
  obtain ⟨d, ds', rfl⟩ := List.exists_cons_of_ne_nil h2
  have hd : d.isDigit = true := h3 d (List.mem_cons_self d ds')
  rw [show ws1 ++ (d :: ds') ++ dot ++ ws2 =
      ws1 ++ ((d :: ds') ++ (dot ++ ws2)) by
    rw [List.append_assoc, List.append_assoc]]
  rw [firstDigitRun_append_spaces ws1 _ h1, List.cons_append,
    firstDigitRun_cons_digit d _ hd,
    takeWhile_append_all Char.isDigit ds' _
      (fun c hc => h3 c (List.mem_cons_of_mem d hc)),
    takeWhile_digit_dot_spaces dot ws2 h4 h5, List.append_nil]

theorem chars_of_poem_number {s : List Char} (h : is_poem_number s = true) :
    ∀ c ∈ s, markerChar c = true := by
  intro c hc
  have hsplit : s = s.takeWhile isSpace ++ s.dropWhile isSpace :=
    (List.takeWhile_append_dropWhile _ _).symm
  rw [hsplit] at hc
  rcases List.mem_append.1 hc with h1 | h2
  · simp [markerChar, List.mem_takeWhile_imp h1]
  · set rest := s.dropWhile isSpace with hrest
    have hsplit2 : rest = rest.takeWhile Char.isDigit ++
        rest.dropWhile Char.isDigit :=
      (List.takeWhile_append_dropWhile _ _).symm
    rw [hsplit2] at h2
    rcases List.mem_append.1 h2 with h3 | h4
    · simp [markerChar, List.mem_takeWhile_imp h3]
    · simp only [is_poem_number, Bool.and_eq_true, ← hrest] at h
      set after := rest.dropWhile Char.isDigit with hafter
      cases hafterc : after with
      | nil => rw [hafterc] at h4; exact absurd h4 (by simp)
      | cons a t =>
        rw [hafterc] at h4
        rw [hafterc] at h
        by_cases ha : a = '.'
        · subst ha
          simp only [List.head?_cons, Option.some.injEq, if_pos rfl,
            List.tail_cons] at h
          rcases List.mem_cons.1 h4 with rfl | h5
          · simp [markerChar]
          · have := List.all_eq_true.mp h.2 c h5
            simp [markerChar, this]
        · rw [List.head?_cons, if_neg (by simp [ha])] at h
          have := List.all_eq_true.mp h.2 c h4
          simp [markerChar, this]

/-- C2: every string of the shape "whitespace, digits, optional dot,
whitespace" is recognised as a poem marker and its digit run is extracted
verbatim; any string containing a character other than a digit, a dot, or
whitespace is rejected. -/
theorem marker_recognition :
    (∀ ws1 ds dot ws2 : List Char,
        (∀ c ∈ ws1, isSpace c = true) → ds ≠ [] →
        (∀ c ∈ ds, c.isDigit = true) → (dot = [] ∨ dot = ['.']) →
        (∀ c ∈ ws2, isSpace c = true) →
        is_poem_number (ws1 ++ ds ++ dot ++ ws2) = true ∧
        firstDigitRun (ws1 ++ ds ++ dot ++ ws2) = ds) ∧
    (∀ s : List Char, (∃ c ∈ s, markerChar c = false) →
        is_poem_number s = false) := by
  constructor
  · intro ws1 ds dot ws2 h1 h2 h3 h4 h5
    exact ⟨is_poem_number_of_shape ws1 ds dot ws2 h1 h2 h3 h4 h5,
      firstDigitRun_of_shape ws1 ds dot ws2 h1 h2 h3 h4 h5⟩
  · rintro s ⟨c, hc, hbad⟩
    cases hipn : is_poem_number s with
    | false => rfl
    | true =>
      rw [chars_of_poem_number hipn c hc] at hbad
      exact absurd hbad (by simp)

/-- Witness for C2 at the concrete marker " 12. " and the non-marker "12a". -/
theorem marker_recognition_witness :
    (is_poem_number ([' '] ++ ['1', '2'] ++ ['.'] ++ [' ']) = true ∧
      firstDigitRun ([' '] ++ ['1', '2'] ++ ['.'] ++ [' ']) = ['1', '2']) ∧
    is_poem_number ['1', '2', 'a'] = false :=
  ⟨marker_recognition.1 [' '] ['1', '2'] ['.'] [' '] (by decide) (by decide)
      (by decide) (Or.inr rfl) (by decide),
    marker_recognition.2 ['1', '2', 'a'] ⟨'a', by decide, by decide⟩⟩

/-! ## C3: title extraction -/

theorem foldl_poemStep_lines (a : List Char) (paras : List (List Char)) :
    ∀ p : Poem, (paras.foldl (poemStep a) p).lines =
      p.lines ++ paras.filter fun q => decide (pyStrip q ≠ a) := by
  induction paras with
  | nil => intro p; simp
  | cons q rest ih =>
    intro p
    by_cases hq : pyStrip q = a
    · simp only [List.foldl_cons, poemStep, if_pos hq, ih,
        List.filter_cons, hq]
      simp
    · simp only [List.foldl_cons, poemStep, if_neg hq]
      by_cases ht : p.title = none ∧ pyStrip q ≠ []
      · rw [if_pos ht, ih]
        simp [List.filter_cons, hq]
      · rw [if_neg ht, ih]
        simp [List.filter_cons, hq]

theorem foldl_poemStep_title_some (a t : List Char)
    (paras : List (List Char)) :
    ∀ p : Poem, p.title = some t →
      (paras.foldl (poemStep a) p).title = some t := by
  induction paras with
  | nil => intro p h; exact h
  | cons q rest ih =>
    intro p h
    by_cases hq : pyStrip q = a
    · simp only [List.foldl_cons, poemStep, if_pos hq]
      exact ih _ h
    · simp only [List.foldl_cons, poemStep, if_neg hq]
      have ht : ¬(p.title = none ∧ pyStrip q ≠ []) := by
        rintro ⟨h1, -⟩; rw [h] at h1; exact Option.noConfusion h1
      rw [if_neg ht]
      exact ih _ h

theorem foldl_poemStep_title_none (a : List Char)
    (paras : List (List Char)) :
    ∀ p : Poem, p.title = none →
      (paras.foldl (poemStep a) p).title =
        (paras.find? fun q =>
          decide (pyStrip q ≠ [] ∧ pyStrip q ≠ a)).map pyStrip := by
  induction paras with
  | nil => intro p h; simpa using h
  | cons q rest ih =>
    intro p h
    by_cases hq : pyStrip q = a
    · have hpred : (fun q => decide (pyStrip q ≠ [] ∧ pyStrip q ≠ a)) q =
          false := by simp [hq]
      simp only [List.foldl_cons, poemStep, if_pos hq, List.find?_cons, hpred]
      exact ih _ h
    · by_cases hne : pyStrip q = []
      · have hpred : (fun q => decide (pyStrip q ≠ [] ∧ pyStrip q ≠ a)) q =
            false := by simp [hne]
        have ht : ¬(p.title = none ∧ pyStrip q ≠ []) := by
          rintro ⟨-, h2⟩; exact h2 hne
        simp only [List.foldl_cons, poemStep, if_neg hq, if_neg ht,
          List.find?_cons, hpred]
        exact ih _ h
      · have hpred : (fun q => decide (pyStrip q ≠ [] ∧ pyStrip q ≠ a)) q =
            true := by simp [hne, hq]
        have ht : p.title = none ∧ pyStrip q ≠ [] := ⟨h, hne⟩
        simp only [List.foldl_cons, poemStep, if_neg hq, if_pos ht,
          List.find?_cons, hpred]
        exact foldl_poemStep_title_some a (pyStrip q) rest _ rfl

/-- The poem-content paragraphs of the title-extraction example. -/
def titleExampleParas : List (List Char) :=
  ["", "  ", "Sunset Over the Bay", "line two"].map String.toList

/-- C3: starting from a fresh poem, the accumulated title is the stripped
text of the first content paragraph that is neither blank nor the author
signature (None when there is no such paragraph), the title paragraph stays
in the body, and the body is exactly the non-signature paragraphs in order;
on the example content the title is "Sunset Over the Bay" and both that line
and "line two" are in the body. -/
theorem title_extraction :
    (∀ (a num : List Char) (paras : List (List Char)),
        (paras.foldl (poemStep a) (mkPoem num)).title =
          (paras.find? fun q =>
            decide (pyStrip q ≠ [] ∧ pyStrip q ≠ a)).map pyStrip ∧
        (paras.foldl (poemStep a) (mkPoem num)).lines =
          paras.filter fun q => decide (pyStrip q ≠ a)) ∧
    (titleExampleParas.foldl (poemStep AUTHOR_NAME) (mkPoem ['1'])).title =
      some "Sunset Over the Bay".toList ∧
    "Sunset Over the Bay".toList ∈
      (titleExampleParas.foldl (poemStep AUTHOR_NAME) (mkPoem ['1'])).lines ∧
    "line two".toList ∈
      (titleExampleParas.foldl (poemStep AUTHOR_NAME) (mkPoem ['1'])).lines := by
  refine ⟨fun a num paras => ⟨foldl_poemStep_title_none a paras _ rfl, ?_⟩,
    by decide, by decide, by decide⟩
  rw [foldl_poemStep_lines]
  simp [mkPoem]

/-! ## C4: author signature -/

/-- C4: a content paragraph whose stripped text equals the author name only
sets the signature flag (the paragraph is not appended to the body), and the
rendered file of a signed poem ends with the author name in emphasis markers
after two blank lines, with nothing after the closing asterisk. -/
theorem author_signature :
    (∀ (a : List Char) (p : Poem) (para : List Char),
        pyStrip para = a →
        poemStep a p para = { p with has_author_sig := true }) ∧
    (∀ (a : List Char) (p : Poem), p.has_author_sig = true →
        ∃ pre : List Char,
          renderPoem a p = pre ++ ("\n\n*".toList ++ a ++ ['*'])) := by
  constructor
  · intro a p para h
    simp [poemStep, h]
  · intro a p h
    exact ⟨_, by unfold renderPoem; rw [if_pos h]⟩

/-- Witness for C4: a stripped-equal paragraph sets the flag without touching
the body, and a signed poem's rendering ends in the emphasised author name. -/
theorem author_signature_witness :
    poemStep AUTHOR_NAME (mkPoem ['1']) " Urangani T.M ".toList =
      { mkPoem ['1'] with has_author_sig := true } ∧
    ∃ pre : List Char,
      renderPoem AUTHOR_NAME
        { number := ['1'], title := some "First".toList,
          lines := ["First".toList], has_author_sig := true } =
        pre ++ ("\n\n*".toList ++ AUTHOR_NAME ++ ['*']) :=
  ⟨author_signature.1 AUTHOR_NAME (mkPoem ['1']) " Urangani T.M ".toList
      (by decide),
    author_signature.2 AUTHOR_NAME _ rfl⟩

/-! ## C5: emptiness filter -/

theorem writePoemFile_none_of_blank (a : List Char) (p : Poem)
    (h : ∀ l ∈ p.lines, pyStrip l = []) :
    writePoemFile a p = none := by
  have hany : (p.lines.any fun l => !(pyStrip l).isEmpty) = false := by
    rw [List.any_eq_false]
    intro l hl
    simp [h l hl]
  simp [writePoemFile, hany]

theorem writePoemFile_some_of_nonblank (a : List Char) (p : Poem)
    (h : ∃ l ∈ p.lines, pyStrip l ≠ []) :
    writePoemFile a p = some (poemFilename p, renderPoem a p) := by
  obtain ⟨l, hl, hne⟩ := h
  have hany : (p.lines.any fun l => !(pyStrip l).isEmpty) = true :=
    List.any_eq_true.mpr ⟨l, hl, by simp [List.isEmpty_iff, hne]⟩
  simp [writePoemFile, hany]

theorem writePoems_eq_filter (a : List Char) (poems : List Poem) :
    writePoems a poems =
      (poems.filter fun p =>
        p.lines.any fun l => !(pyStrip l).isEmpty).map
        fun p => (poemFilename p, renderPoem a p) := by
  induction poems with
  | nil => rfl
  | cons p rest ih =>
    cases hany : p.lines.any fun l => !(pyStrip l).isEmpty with
    | false =>
      have hf : writePoemFile a p = none := by simp [writePoemFile, hany]
      simp only [writePoems, List.filterMap_cons, hf, List.filter_cons, hany]
      exact ih
    | true =>
      have hf : writePoemFile a p = some (poemFilename p, renderPoem a p) := by
        simp [writePoemFile, hany]
      simp only [writePoems, List.filterMap_cons, hf, List.filter_cons, hany,
        if_true, List.map_cons]
      exact congrArg _ ih

/-- C5: the poem-writing loop produces a file exactly for the poems with at
least one line that is non-blank after stripping; a poem whose lines all
strip to the empty string is silently dropped. -/
theorem empty_poem_filter :
    (∀ (a : List Char) (poems : List Poem),
        writePoems a poems =
          (poems.filter fun p =>
            p.lines.any fun l => !(pyStrip l).isEmpty).map
            fun p => (poemFilename p, renderPoem a p)) ∧
    (∀ (a : List Char) (p : Poem),
        (∀ l ∈ p.lines, pyStrip l = []) → writePoemFile a p = none) ∧
    (∀ (a : List Char) (p : Poem),
        (∃ l ∈ p.lines, pyStrip l ≠ []) →
        writePoemFile a p = some (poemFilename p, renderPoem a p)) :=
  ⟨writePoems_eq_filter, writePoemFile_none_of_blank,
    writePoemFile_some_of_nonblank⟩

/-- Witness for C5: an all-blank poem yields no file, a poem with content
yields one. -/
theorem empty_poem_filter_witness :
    writePoemFile AUTHOR_NAME { mkPoem ['1'] with lines := [" ".toList, []] } = none ∧
    writePoemFile AUTHOR_NAME { mkPoem ['1'] with lines := ["x".toList] } =
      some (poemFilename { mkPoem ['1'] with lines := ["x".toList] },
        renderPoem AUTHOR_NAME { mkPoem ['1'] with lines := ["x".toList] }) :=
  ⟨empty_poem_filter.2.1 AUTHOR_NAME _ (by decide),
    empty_poem_filter.2.2 AUTHOR_NAME _ ⟨"x".toList, by decide, by decide⟩⟩

/-! ## C6: poem number and id field -/

/-- Numeric value of a digit string, used to state the claim's "positive
integer identifier". -/
def digitsVal (s : List Char) : Nat :=
  s.foldl (fun a c => 10 * a + (c.toNat - '0'.toNat)) 0

/-- C6 counterexample: the recognised marker "00" produces a poem whose
number is the digit string "00" — its numeric value is 0, not a positive
integer, and it keeps its leading zero rather than being unpadded. -/
theorem poem_number_counterexample :
    (segment AUTHOR_NAME (["00", "x"].map String.toList)).1.map Poem.number =
      [['0', '0']] ∧
    digitsVal ['0', '0'] = 0 ∧ ['0', '0'] ≠ ['0'] := by
  decide

/-- C6 (amended): a recognised marker starts a poem whose number is the
first run of digits of the marker text kept verbatim (possibly zero,
possibly with leading zeros), and the metadata block contains the line
`id: <number>` with that exact digit string. -/
theorem poem_number_verbatim :
    (∀ (a : List Char) (st : SegState) (para : List Char),
        is_poem_number (pyStrip para) = true →
        (stepPara a st para).current_poem =
          some (mkPoem (firstDigitRun (pyStrip para)))) ∧
    (∀ (a : List Char) (p : Poem), ∃ l r : List Char,
        renderPoem a p = l ++ ("id: ".toList ++ p.number ++ ['\n']) ++ r) := by
  constructor
  · intro a st para h
    simp [stepPara, h]
  · intro a p
    refine ⟨"---\n".toList ++ "title: \"".toList ++
      pyTitleOr p.title "Untitled".toList ++ "\"\n".toList ++
      "author: \"".toList ++ a ++ "\"\n".toList,
      "---\n\n".toList ++ "# ".toList ++
      pyTitleOr p.title ("Poem ".toList ++ p.number) ++ "\n\n".toList ++
      (p.lines.map renderBodyLine).flatten ++
      (if p.has_author_sig then "\n\n*".toList ++ a ++ ['*'] else []), ?_⟩
    simp [renderPoem, List.append_assoc]

/-- Witness for C6 at the concrete marker " 007. ". -/
theorem poem_number_verbatim_witness :
    (stepPara AUTHOR_NAME initState " 007. ".toList).current_poem =
      some (mkPoem ['0', '0', '7']) ∧
    ∃ l r : List Char,
      renderPoem AUTHOR_NAME (mkPoem ['7']) =
        l ++ ("id: ".toList ++ ['7'] ++ ['\n']) ++ r :=
  ⟨by rw [poem_number_verbatim.1 AUTHOR_NAME initState " 007. ".toList
      (by decide)]; rfl,
    poem_number_verbatim.2 AUTHOR_NAME (mkPoem ['7'])⟩

/-! ## C7: front matter accumulation -/

theorem takeWhile_eq_self_of_all {α : Type} (p : α → Bool) (l : List α)
    (h : ∀ c ∈ l, p c = true) : l.takeWhile p = l := by
  induction l with
  | nil => rfl
  | cons x xs ih =>
    rw [List.takeWhile_cons, if_pos (h x (List.mem_cons_self x xs))]
    exact congrArg (x :: ·) (ih fun c hc => h c (List.mem_cons_of_mem x hc))

theorem foldl_stepPara_found (a : List Char) (l : List (List Char)) :
    ∀ st : SegState, st.first_poem_found = true →
      (l.foldl (stepPara a) st).front_matter = st.front_matter ∧
      (l.foldl (stepPara a) st).first_poem_found = true := by
  induction l with
  | nil => intro st h; exact ⟨rfl, h⟩
  | cons q rest ih =>
    intro st h
    have hstep : (stepPara a st q).front_matter = st.front_matter ∧
        (stepPara a st q).first_poem_found = true := by
      cases hm : is_poem_number (pyStrip q) with
      | true => simp [stepPara, hm]
      | false =>
        cases hc : st.current_poem with
        | none => simp [stepPara, hm, h, hc]
        | some p => simp [stepPara, hm, h, hc]
    obtain ⟨h1, h2⟩ := ih (stepPara a st q) hstep.2
    exact ⟨by rw [List.foldl_cons, h1, hstep.1], by
      rw [List.foldl_cons]; exact h2⟩

theorem foldl_stepPara_prefound (a : List Char) (l : List (List Char)) :
    ∀ st : SegState, st.first_poem_found = false →
      (l.foldl (stepPara a) st).front_matter =
        (l.takeWhile fun q => !is_poem_number (pyStrip q)).foldl frontStep
          st.front_matter := by
  induction l with
  | nil => intro st _; rfl
  | cons q rest ih =>
    intro st h
    cases hm : is_poem_number (pyStrip q) with
    | true =>
      have h1 : (stepPara a st q).first_poem_found = true := by
        simp [stepPara, hm]
      have h2 : (stepPara a st q).front_matter = st.front_matter := by
        simp [stepPara, hm]
      have h3 : ((q :: rest).takeWhile fun x => !is_poem_number (pyStrip x)) =
          [] := by simp [List.takeWhile_cons, hm]
      rw [h3, List.foldl_cons, (foldl_stepPara_found a rest _ h1).1, h2]
      rfl
    | false =>
      have h1 : (stepPara a st q).first_poem_found = false := by
        simp [stepPara, hm, h]
      have h2 : (stepPara a st q).front_matter =
          frontStep st.front_matter q := by simp [stepPara, hm, h]
      have h3 : ((q :: rest).takeWhile fun x => !is_poem_number (pyStrip x)) =
          q :: (rest.takeWhile fun x => !is_poem_number (pyStrip x)) := by
        simp [List.takeWhile_cons, hm]
      rw [List.foldl_cons, ih _ h1, h2, h3, List.foldl_cons]

theorem foldl_frontStep_ne_nil (l : List (List Char)) :
    ∀ fm : List (List Char), fm ≠ [] → l.foldl frontStep fm = fm ++ l := by
  induction l with
  | nil => intro fm _; simp
  | cons q rest ih =>
    intro fm h
    have hstep : frontStep fm q = fm ++ [q] := by simp [frontStep, h]
    rw [List.foldl_cons, hstep, ih _ (by simp), List.append_assoc,
      List.singleton_append]

theorem foldl_frontStep_nil (l : List (List Char)) :
    l.foldl frontStep [] = l.dropWhile fun q => (pyStrip q).isEmpty := by
  induction l with
  | nil => rfl
  | cons q rest ih =>
    by_cases hb : pyStrip q = []
    · have hstep : frontStep [] q = [] := by simp [frontStep, hb]
      rw [List.foldl_cons, hstep, ih, List.dropWhile_cons]
      simp [hb]
    · have hstep : frontStep [] q = [q] := by simp [frontStep, hb]
      rw [List.foldl_cons, hstep, foldl_frontStep_ne_nil rest [q] (by simp),
        List.dropWhile_cons]
      simp [List.isEmpty_iff, hb]

theorem foldl_stepPara_no_marker (a : List Char) (l : List (List Char)) :
    ∀ st : SegState, (∀ q ∈ l, is_poem_number (pyStrip q) = false) →
      st.first_poem_found = false →
      (l.foldl (stepPara a) st).poems = st.poems ∧
      (l.foldl (stepPara a) st).current_poem = st.current_poem := by
  induction l with
  | nil => intro st _ _; exact ⟨rfl, rfl⟩
  | cons q rest ih =>
    intro st hall h
    have hm : is_poem_number (pyStrip q) = false :=
      hall q (List.mem_cons_self q rest)
    have h1 : (stepPara a st q).first_poem_found = false := by
      simp [stepPara, hm, h]
    have h2 : (stepPara a st q).poems = st.poems := by simp [stepPara, hm, h]
    have h3 : (stepPara a st q).current_poem = st.current_poem := by
      simp [stepPara, hm, h]
    obtain ⟨g1, g2⟩ := ih (stepPara a st q)
      (fun x hx => hall x (List.mem_cons_of_mem _ hx)) h1
    exact ⟨by rw [List.foldl_cons, g1, h2], by rw [List.foldl_cons, g2, h3]⟩

/-- C7: the front matter produced by segmentation is exactly the raw
paragraphs before the first marker with the *leading* run of blank
paragraphs removed (blanks after the first kept paragraph survive); when no
paragraph is a marker, no poem is produced and all paragraphs past the
leading blanks become front matter. -/
theorem front_matter_accumulation :
    (∀ (a : List Char) (paras : List (List Char)),
        (segment a paras).2 =
          (paras.takeWhile fun q => !is_poem_number (pyStrip q)).dropWhile
            fun q => (pyStrip q).isEmpty) ∧
    (∀ (a : List Char) (paras : List (List Char)),
        (∀ q ∈ paras, is_poem_number (pyStrip q) = false) →
        (segment a paras).1 = [] ∧
        (segment a paras).2 =
          paras.dropWhile fun q => (pyStrip q).isEmpty) := by
  have key : ∀ (a : List Char) (paras : List (List Char)),
      (segment a paras).2 =
        (paras.takeWhile fun q => !is_poem_number (pyStrip q)).dropWhile
          fun q => (pyStrip q).isEmpty := by
    intro a paras
    show (paras.foldl (stepPara a) initState).front_matter = _
    rw [foldl_stepPara_prefound a paras initState rfl]
    exact foldl_frontStep_nil _
  refine ⟨key, fun a paras hall => ⟨?_, ?_⟩⟩
  · show (paras.foldl (stepPara a) initState).poems ++
      ((paras.foldl (stepPara a) initState).current_poem).toList = []
    obtain ⟨g1, g2⟩ := foldl_stepPara_no_marker a paras initState hall rfl
    rw [g1, g2]
    rfl
  · rw [key a paras,
      takeWhile_eq_self_of_all _ _ fun q hq => by simp [hall q hq]]

/-- Witness for C7 on a marker-free paragraph sequence with a leading blank. -/
theorem front_matter_accumulation_witness :
    (segment AUTHOR_NAME (["", "hello", "", "bye"].map String.toList)).1 =
      [] ∧
    (segment AUTHOR_NAME (["", "hello", "", "bye"].map String.toList)).2 =
      (["", "hello", "", "bye"].map String.toList).dropWhile
        fun q => (pyStrip q).isEmpty :=
  front_matter_accumulation.2 AUTHOR_NAME
    (["", "hello", "", "bye"].map String.toList) (by decide)

/-! ## C8: filename sanitization -/

theorem sanitize_filename_length (t : Option (List Char)) :
    (sanitize_filename t).length ≤ 50 := by
  match t with
  | none => decide
  | some s =>
    simp only [sanitize_filename]
    by_cases hs : s.isEmpty
    · rw [if_pos hs]; decide
    · rw [if_neg hs]
      exact List.length_take_le _ _

theorem sanitize_filename_chars (t : Option (List Char)) (c : Char)
    (hc : c ∈ sanitize_filename t) :
    INVALID_CHARS.contains c = false ∧ c ≠ ' ' := by
  have huntl : "Untitled".toList = ['U', 'n', 't', 'i', 't', 'l', 'e', 'd'] :=
    rfl
  match t with
  | none =>
    rw [show sanitize_filename none = "Untitled".toList from rfl, huntl] at hc
    fin_cases hc <;> exact ⟨by decide, by decide⟩
  | some s =>
    simp only [sanitize_filename] at hc
    by_cases hs : s.isEmpty
    · rw [if_pos hs, huntl] at hc
      fin_cases hc <;> exact ⟨by decide, by decide⟩
    · rw [if_neg hs] at hc
      have hc2 := List.mem_of_mem_take hc
      obtain ⟨b, hb, rfl⟩ := List.mem_map.1 hc2
      have hb2 : b ∈ s.filter fun x => !INVALID_CHARS.contains x :=
        mem_pyStrip hb
      have hok : (!INVALID_CHARS.contains b) = true :=
        (List.mem_filter.1 hb2).2
      by_cases hsp : b = ' '
      · subst hsp
        rw [if_pos rfl]
        exact ⟨by decide, by decide⟩
      · rw [if_neg hsp]
        exact ⟨by simpa using hok, hsp⟩

/-- C8: the output filename is the number zero-padded to width 3, an
underscore, the sanitized title and ".md"; an absent title sanitizes to
"Untitled"; a sanitized title has at most 50 characters and contains no
removed character and no space; on title "My: Poem/Title?" with number "7"
the filename is 007_My_PoemTitle.md. -/
theorem filename_sanitization :
    poemFilename { mkPoem ['7'] with title := some "My: Poem/Title?".toList } =
      "007_My_PoemTitle.md".toList ∧
    sanitize_filename none = "Untitled".toList ∧
    (∀ t : Option (List Char), (sanitize_filename t).length ≤ 50) ∧
    (∀ (t : Option (List Char)) (c : Char), c ∈ sanitize_filename t →
        INVALID_CHARS.contains c = false ∧ c ≠ ' ') :=
  ⟨by decide, rfl, sanitize_filename_length, sanitize_filename_chars⟩

/-- Witness for C8: the length bound at a concrete title and the character
property at the underscore of a sanitized concrete title. -/
theorem filename_sanitization_witness :
    (sanitize_filename (some "abc".toList)).length ≤ 50 ∧
    (INVALID_CHARS.contains '_' = false ∧ '_' ≠ ' ') :=
  ⟨filename_sanitization.2.2.1 (some "abc".toList),
    filename_sanitization.2.2.2 (some "a b<c".toList) '_' (by decide)⟩

/-! ## C10: signature-only poems are dropped -/

theorem foldl_poemStep_sig (a : List Char) (paras : List (List Char)) :
    ∀ p : Poem, (paras.foldl (poemStep a) p).has_author_sig =
      (p.has_author_sig || paras.any fun q => decide (pyStrip q = a)) := by
  induction paras with
  | nil => intro p; simp
  | cons q rest ih =>
    intro p
    by_cases hq : pyStrip q = a
    · simp only [List.foldl_cons, poemStep, if_pos hq, ih, List.any_cons]
      simp [hq]
    · simp only [List.foldl_cons, poemStep, if_neg hq]
      by_cases ht : p.title = none ∧ pyStrip q ≠ []
      · rw [if_pos ht, ih]
        simp [List.any_cons, hq]
      · rw [if_neg ht, ih]
        simp [List.any_cons, hq]

/-- C10: a poem whose content paragraphs are each blank or exactly the
author signature (after stripping) produces no output file — its body stays
all-blank because the signature paragraph is never stored — even though its
signature flag is set whenever a signature paragraph occurred. -/
theorem signature_only_poem_dropped :
    ∀ (a num : List Char) (paras : List (List Char)),
      (∀ q ∈ paras, pyStrip q = [] ∨ pyStrip q = a) →
      writePoemFile a (paras.foldl (poemStep a) (mkPoem num)) = none ∧
      ((∃ q ∈ paras, pyStrip q = a) →
        (paras.foldl (poemStep a) (mkPoem num)).has_author_sig = true) := by
  intro a num paras hall
  constructor
  · apply writePoemFile_none_of_blank
    intro l hl
    rw [foldl_poemStep_lines] at hl
    simp only [mkPoem, List.nil_append] at hl
    obtain ⟨hmem, hne⟩ := List.mem_filter.1 hl
    rcases hall l hmem with h | h
    · exact h
    · exact absurd h (by simpa using hne)
  · rintro ⟨q, hq, hqa⟩
    rw [foldl_poemStep_sig]
    simp only [mkPoem, Bool.false_or]
    exact List.any_eq_true.mpr ⟨q, hq, by simp [hqa]⟩

/-- Witness for C10: a poem whose content is a blank line and a signature
line is dropped while its signature flag is true. -/
theorem signature_only_poem_dropped_witness :
    writePoemFile AUTHOR_NAME
      ((["", " Urangani T.M "].map String.toList).foldl
        (poemStep AUTHOR_NAME) (mkPoem ['3'])) = none ∧
    ((["", " Urangani T.M "].map String.toList).foldl
      (poemStep AUTHOR_NAME) (mkPoem ['3'])).has_author_sig = true := by
  have h := signature_only_poem_dropped AUTHOR_NAME ['3']
    (["", " Urangani T.M "].map String.toList) (by decide)
  exact ⟨h.1, h.2 ⟨" Urangani T.M ".toList, by decide, by decide⟩⟩

end PoemConv
